import Mathlib

/-!
Shallow embedding of the Big Brother watch-channel cog
(`src/bot/cogs/watchchannels/bigbrother.py`).

The cog's two core operations, `apply_watch` and `apply_unwatch`, are
translated as pure state transformers over an explicit system state
(authoritative backend record list, process-local watched-user cache, and
the backend's id/timestamp counter).  Backend calls that can fail in the
real system (`fetch_user_cache`, `post_infraction`) take an explicit
boolean oracle telling whether the call succeeds.  Each operation also
returns the list of messages it sent and an event trace recording, in
execution order, the backend writes, cache mutations and sends it
performed.
-/

namespace BigBrother

/-- The apostrophe character, used when composing user-facing messages. -/
def apos : String := String.singleton (Char.ofNat 39)

/-- One infraction record of type "watch" as stored by the backend
(`bot/infractions` endpoint): backend-assigned `id`, the watched user's
id, the `active` flag, the infraction type tag, the free-text reason and
the backend-assigned insertion timestamp. -/
structure WatchRecord where
  id : Nat
  subjectId : Nat
  active : Bool
  kind : String
  reason : String
  insertedAt : Nat
deriving DecidableEq

/-- A chat user as the operations see it: snowflake id, display string
(what Python's `f"{user}"` interpolates) and the `bot` flag. -/
structure User where
  id : Nat
  name : String
  bot : Bool
deriving DecidableEq

/-- Full system state: the backend's record store (newest first, matching
the `-inserted_at` ordering of every query the cog issues), the
`watched_users` cache mapping a user id to its active watch record, and
the backend's counter used to assign fresh ids/timestamps. -/
structure SysState where
  backend : List WatchRecord
  cache : Nat → Option WatchRecord
  nextId : Nat

/-- Backend query `get(api_endpoint, params={user__id, active, type:
"watch", ordering: "-inserted_at"})`: the records for the given user with
the given active flag and type "watch", newest first (the backend list is
kept newest first, so filtering preserves that order). -/
def queryWatch (b : List WatchRecord) (sid : Nat) (act : Bool) : List WatchRecord :=
  b.filter fun r => decide (r.subjectId = sid ∧ r.active = act ∧ r.kind = "watch")

/-- Modelled from the spec: the `Watched-User Cache` contents after a
bulk load — "mapping subjectId → WatchRecord containing exactly the
currently-active records known to this process" (§3), built by
`refresh()` / `fetch_user_cache` (§4.1), which is not under `src/`.
Each user id maps to the newest active watch record for that user. -/
def cacheOf (b : List WatchRecord) : Nat → Option WatchRecord :=
  fun sid => (queryWatch b sid true).head?

/-- Modelled from the spec: `WatchChannel.fetch_user_cache` (not under
`src/`) — "refresh() fetches all currently-active watch records from the
backend and replaces the cache map atomically ... on failure the previous
cache contents are left untouched" (§4.1).  The boolean oracle `ok` says
whether the backend call succeeds; the returned flag is the truthiness
the caller checks. -/
def fetch_user_cache (ok : Bool) (st : SysState) : Bool × SysState :=
  if ok then (true, { st with cache := cacheOf st.backend })
  else (false, st)

/-- The record a successful backend create persists and returns: the
backend assigns the next id and timestamp, the caller supplies the rest. -/
def mkInfraction (nid userId : Nat) (kind reason : String) (active : Bool) : WatchRecord :=
  { id := nid, subjectId := userId, active := active, kind := kind,
    reason := reason, insertedAt := nid }

/-- Modelled from the spec: `post_infraction` (from
`bot.cogs.moderation.utils`, not under `src/`) — the backend `create`:
"persists a new record; empty/falsy return signals failure" (§6).  On
success the backend assigns the next id and timestamp and the new record
becomes the newest entry; on failure nothing is written and `none` is
returned. -/
def post_infraction (ok : Bool) (st : SysState) (userId : Nat) (kind reason : String)
    (active : Bool) : Option WatchRecord × SysState :=
  if ok then
    let r : WatchRecord := mkInfraction st.nextId userId kind reason active
    (some r, { st with backend := r :: st.backend, nextId := st.nextId + 1 })
  else (none, st)

/-- Backend `patch(f"{api_endpoint}/{id}", json={"active": False})`: set
`active := false` on every backend record carrying the given id. -/
def listPatch (b : List WatchRecord) (recId : Nat) : List WatchRecord :=
  b.map fun r => if r.id = recId then { r with active := false } else r

/-- An observable effect of one operation, in execution order: a backend
create, a backend patch, a cache refresh, a cache insertion, a cache
removal, or a message sent to the invoking channel. -/
inductive Event where
  | backendCreate (r : WatchRecord)
  | backendPatch (recId : Nat) (active : Bool)
  | cacheRefresh
  | cachePut (sid : Nat) (r : WatchRecord)
  | cacheRemove (sid : Nat)
  | send (msg : String)
deriving DecidableEq

/-- The digest the success branch of `apply_watch` extracts from the
inactive-history query result: `len(history) // 2` prior episodes,
`history[0]["reason"]` as the most recent closing reason and
`"Watched: " + history[1]["reason"]` as the most recent opening reason. -/
structure HistoryDigest where
  episodeCount : Nat
  closingReason : String
  openingReason : String
deriving DecidableEq

/-- The `if len(history) > 1` block of `apply_watch`: a digest is built
exactly when the history has more than one entry. -/
def summarizeHistory : List WatchRecord → Option HistoryDigest
  | h0 :: h1 :: rest =>
    some { episodeCount := (h0 :: h1 :: rest).length / 2,
           closingReason := h0.reason,
           openingReason := "Watched: " ++ h1.reason }
  | _ => none

/-- The text `apply_watch` appends to its success message from a digest:
`"\n\nUser's previous watch reasons {total}:```{start_reason}\n\n{end_reason}```"`
with `total = "({..} previous infractions in total)"`. -/
def renderDigest (d : HistoryDigest) : String :=
  "\n\nUser" ++ apos ++ "s previous watch reasons (" ++ toString d.episodeCount ++
    " previous infractions in total):```" ++ d.openingReason ++ "\n\n" ++
    d.closingReason ++ "```"

/-- Message of the bot-user guard of `apply_watch`. -/
def botGuardMsg (author : String) : String :=
  ":x: I" ++ apos ++ "m sorry " ++ author ++ ", I" ++ apos ++
    "m afraid I can" ++ apos ++ "t do that. I only watch humans."

/-- Message of the cache-refresh-failure guard of `apply_watch`. -/
def cacheFailMsg (u : User) : String :=
  ":x: Updating the user cache failed, can" ++ apos ++ "t watch user " ++ u.name

/-- Message of the already-watched guard of `apply_watch`. -/
def alreadyWatchedMsg (u : User) : String :=
  ":x: " ++ u.name ++ " is already being watched."

/-- Base success message of `apply_watch`. -/
def watchSuccessMsg (u : User) : String :=
  ":white_check_mark: Messages sent by " ++ u.name ++
    " will now be relayed to Big Brother."

/-- Message of the empty-create branch of `apply_watch`. -/
def postFailMsg : String :=
  ":x: Failed to post the infraction: response was empty."

/-- Success message of `apply_unwatch`. -/
def unwatchSuccessMsg (u : User) : String :=
  ":white_check_mark: Messages sent by " ++ u.name ++ " will no longer be relayed."

/-- Not-watched message of `apply_unwatch`. -/
def notWatchedMsg : String :=
  ":x: The specified user is currently not being watched."

/-- Result of one `apply_watch` invocation: final state, messages sent,
and the event trace in execution order. -/
structure WatchResult where
  state : SysState
  msgs : List String
  trace : List Event

/-- `BigBrother.apply_watch(ctx, user, reason)`: reject bots; force a
cache refresh and abort on failure; abort when the user is already in the
cache; otherwise create an active watch infraction, mirror it into the
cache on success, query the user's inactive watch history and append its
digest to the confirmation, or report an empty-response failure when the
create returned nothing.  `refreshOk`/`createOk` are the oracles for the
two fallible backend calls. -/
def apply_watch (st : SysState) (user : User) (author reason : String)
    (refreshOk createOk : Bool) : WatchResult :=
  if user.bot then
    let m := botGuardMsg author
    { state := st, msgs := [m], trace := [Event.send m] }
  else
    let fetched := fetch_user_cache refreshOk st
    if fetched.1 = false then
      let m := cacheFailMsg user
      { state := fetched.2, msgs := [m], trace := [Event.send m] }
    else
      let st1 := fetched.2
      if (st1.cache user.id).isSome then
        let m := alreadyWatchedMsg user
        { state := st1, msgs := [m], trace := [Event.cacheRefresh, Event.send m] }
      else
        match post_infraction createOk st1 user.id "watch" reason true with
        | (some response, st2) =>
          let st3 := { st2 with
            cache := fun uid => if uid = user.id then some response else st2.cache uid }
          let history := queryWatch st3.backend user.id false
          let m := watchSuccessMsg user ++
            (match summarizeHistory history with
             | some d => renderDigest d
             | none => "")
          { state := st3, msgs := [m],
            trace := [Event.cacheRefresh, Event.backendCreate response,
                      Event.cachePut user.id response, Event.send m] }
        | (none, st2) =>
          let m := postFailMsg
          { state := st2, msgs := [m], trace := [Event.cacheRefresh, Event.send m] }

/-- Result of one `apply_unwatch` invocation: whether the single-record
destructuring raised, the final state, messages sent, and the event
trace in execution order. -/
structure UnwatchResult where
  raised : Bool
  state : SysState
  msgs : List String
  trace : List Event

/-- `BigBrother.apply_unwatch(ctx, user, reason, banned)`: query the
backend for the user's active watch infractions (not trusting the cache);
when none exist, report "not watched" unless `banned`; when exactly one
exists, patch it inactive, post a closing `"Unwatched: " ++ reason` audit
record, send the success message unless `banned`, and drop the user from
the cache (`_remove_user`, modelled from the spec as the cache `remove`
of §4.1 since `WatchChannel` is not under `src/`); when several exist,
the `[infraction] = active_watches` destructuring raises before doing
anything.  `postOk` is the oracle for the audit-record create. -/
def apply_unwatch (st : SysState) (user : User) (reason : String) (banned : Bool)
    (postOk : Bool) : UnwatchResult :=
  let active_watches := queryWatch st.backend user.id true
  match active_watches with
  | [] =>
    if banned = false then
      { raised := false, state := st, msgs := [notWatchedMsg],
        trace := [Event.send notWatchedMsg] }
    else
      { raised := false, state := st, msgs := [], trace := [] }
  | [infraction] =>
    let st1 := { st with backend := listPatch st.backend infraction.id }
    let posted := post_infraction postOk st1 user.id "watch"
      ("Unwatched: " ++ reason) false
    let st2 := posted.2
    let sendPart := if banned = false then [unwatchSuccessMsg user] else []
    let st3 := { st2 with
      cache := fun uid => if uid = user.id then none else st2.cache uid }
    { raised := false, state := st3, msgs := sendPart,
      trace := [Event.backendPatch infraction.id false] ++
        (match posted.1 with
         | some r => [Event.backendCreate r]
         | none => []) ++
        sendPart.map Event.send ++ [Event.cacheRemove user.id] }
  | _ :: _ :: _ =>
    { raised := true, state := st, msgs := [], trace := [] }

/-- One strictly sequential engine invocation, with its oracles. -/
inductive Op where
  | watch (user : User) (author reason : String) (refreshOk createOk : Bool)
  | unwatch (user : User) (reason : String) (banned postOk : Bool)

/-- The state after one sequential invocation (a raised `apply_unwatch`
leaves the state as it was at the raise point, which is the pre-call
state). -/
def runOp (st : SysState) : Op → SysState
  | Op.watch u a r ro co => (apply_watch st u a r ro co).state
  | Op.unwatch u r b po => (apply_unwatch st u r b po).state

/-- The state after a finite sequence of strictly sequential invocations. -/
def runOps (st : SysState) : List Op → SysState
  | [] => st
  | op :: ops => runOps (runOp st op) ops

/-- Per-subject invariant I1 plus cache agreement: the backend holds at
most one active watch record for the subject, and the cache entry for
the subject is exactly the newest active backend record for the subject
(hence absent iff the subject has no active record). -/
def InvAt (st : SysState) (sid : Nat) : Prop :=
  (queryWatch st.backend sid true).length ≤ 1 ∧
    st.cache sid = (queryWatch st.backend sid true).head?

/-- Backend well-formedness: record ids are pairwise distinct and all
below the id counter (ids are backend-assigned, so fresh creates cannot
collide). -/
def WF (st : SysState) : Prop :=
  (st.backend.map WatchRecord.id).Nodup ∧ ∀ r ∈ st.backend, r.id < st.nextId

/-- Scan of an event trace checking that every cache insertion inserts a
record that some earlier backend create in the trace persisted, and that
every cache removal is preceded by some backend patch. -/
def writesPrecedeCacheMutations (created : List WatchRecord) (patched : Bool) :
    List Event → Bool
  | [] => true
  | Event.backendCreate r :: rest => writesPrecedeCacheMutations (r :: created) patched rest
  | Event.backendPatch _ _ :: rest => writesPrecedeCacheMutations created true rest
  | Event.cachePut _ r :: rest =>
    decide (r ∈ created) && writesPrecedeCacheMutations created patched rest
  | Event.cacheRemove _ :: rest => patched && writesPrecedeCacheMutations created patched rest
  | Event.cacheRefresh :: rest => writesPrecedeCacheMutations created patched rest
  | Event.send _ :: rest => writesPrecedeCacheMutations created patched rest

/-! Concrete states and users used to instantiate the theorems. -/

/-- A fresh system: empty backend, empty cache, id counter at zero. -/
def stEmpty : SysState :=
  { backend := [], cache := fun _ => none, nextId := 0 }

/-- A human user. -/
def uAlice : User := { id := 1, name := "alice", bot := false }

/-- An automated account, rejected by the policy guard. -/
def uBot : User := { id := 2, name := "helperbot", bot := true }

/-- The human user with id 7 used by the stale-cache scenarios. -/
def uSeven : User := { id := 7, name := "seven", bot := false }

/-- The human user with id 0 used by the stale-cache scenarios. -/
def uZero : User := { id := 0, name := "zed", bot := false }

/-- A state whose backend is empty while the cache still holds a stale
entry for subject 0. -/
def stStale : SysState :=
  { backend := [],
    cache := fun s => if s = 0 then some (mkInfraction 0 0 "watch" "old" true) else none,
    nextId := 1 }

/-- A state whose backend holds one active watch record for subject 7
while the cache is empty (stale in the other direction). -/
def stOne : SysState :=
  { backend := [mkInfraction 0 7 "watch" "earlier reason" true],
    cache := fun _ => none, nextId := 1 }

/-- A state whose backend holds two active watch records for subject 7 —
the data-integrity fault the invariant is meant to rule out. -/
def stTwo : SysState :=
  { backend := [mkInfraction 1 7 "watch" "second" true,
                mkInfraction 0 7 "watch" "first" true],
    cache := fun _ => none, nextId := 2 }

/-! Helper lemmas about the backend query, the patch, and well-formedness. -/

theorem mem_queryWatch {b : List WatchRecord} {sid : Nat} {act : Bool} {r : WatchRecord} :
    r ∈ queryWatch b sid act ↔
      r ∈ b ∧ r.subjectId = sid ∧ r.active = act ∧ r.kind = "watch" := by
  simp [queryWatch, List.mem_filter]

theorem queryWatch_cons_pos {x : WatchRecord} {b : List WatchRecord} {sid : Nat}
    {act : Bool} (h : x.subjectId = sid ∧ x.active = act ∧ x.kind = "watch") :
    queryWatch (x :: b) sid act = x :: queryWatch b sid act := by
  simp [queryWatch, List.filter_cons, h]

theorem queryWatch_cons_neg {x : WatchRecord} {b : List WatchRecord} {sid : Nat}
    {act : Bool} (h : ¬(x.subjectId = sid ∧ x.active = act ∧ x.kind = "watch")) :
    queryWatch (x :: b) sid act = queryWatch b sid act := by
  simp only [queryWatch, List.filter_cons, decide_eq_true_eq, h, if_false]

theorem listPatch_cons (x : WatchRecord) (b : List WatchRecord) (pid : Nat) :
    listPatch (x :: b) pid =
      (if x.id = pid then { x with active := false } else x) :: listPatch b pid := rfl

theorem queryWatch_listPatch (b : List WatchRecord) (pid sid : Nat) :
    queryWatch (listPatch b pid) sid true =
      (queryWatch b sid true).filter (fun r => decide (r.id ≠ pid)) := by
  induction b with
  | nil => rfl
  | cons x b ih =>
    rw [listPatch_cons]
    by_cases hid : x.id = pid
    · rw [if_pos hid]
      have hhead : ¬(({ x with active := false } : WatchRecord).subjectId = sid ∧
          ({ x with active := false } : WatchRecord).active = true ∧
          ({ x with active := false } : WatchRecord).kind = "watch") := by
        simp
      rw [queryWatch_cons_neg hhead, ih]
      by_cases hp : x.subjectId = sid ∧ x.active = true ∧ x.kind = "watch"
      · rw [queryWatch_cons_pos hp, List.filter_cons]
        simp [hid]
      · rw [queryWatch_cons_neg hp]
    · rw [if_neg hid]
      by_cases hp : x.subjectId = sid ∧ x.active = true ∧ x.kind = "watch"
      · rw [queryWatch_cons_pos hp, ih, queryWatch_cons_pos hp, List.filter_cons]
        simp [hid]
      · rw [queryWatch_cons_neg hp, ih, queryWatch_cons_neg hp]

theorem listPatch_map_id (b : List WatchRecord) (pid : Nat) :
    (listPatch b pid).map WatchRecord.id = b.map WatchRecord.id := by
  induction b with
  | nil => rfl
  | cons x b ih =>
    by_cases h : x.id = pid <;> simp [listPatch, h] at ih ⊢ <;> exact ih

theorem eq_of_mem_of_id_eq {b : List WatchRecord}
    (hnd : (b.map WatchRecord.id).Nodup) {r s : WatchRecord}
    (hr : r ∈ b) (hs : s ∈ b) (h : r.id = s.id) : r = s :=
  List.inj_on_of_nodup_map hnd hr hs h

theorem mkInfraction_pred (nid userId : Nat) (kind reason : String) (act : Bool) :
    (mkInfraction nid userId kind reason act).subjectId = userId ∧
      (mkInfraction nid userId kind reason act).active = act ∧
      (mkInfraction nid userId kind reason act).kind = kind ∧
      (mkInfraction nid userId kind reason act).id = nid := by
  exact ⟨rfl, rfl, rfl, rfl⟩

theorem invAt_apply_watch (st : SysState) (u : User) (a re : String) (ro co : Bool)
    (sid : Nat) (hinv : InvAt st sid) :
    InvAt (apply_watch st u a re ro co).state sid := by
  by_cases hb : u.bot
  · simpa [apply_watch, hb]
  · cases ro with
    | false => simpa [apply_watch, hb, fetch_user_cache]
    | true =>
      rcases hcc : cacheOf st.backend u.id with _ | rec
      · cases co with
        | false =>
          simp [apply_watch, hb, fetch_user_cache, post_infraction, hcc, InvAt]
          exact ⟨hinv.1, rfl⟩
        | true =>
          simp [apply_watch, hb, fetch_user_cache, post_infraction, hcc, InvAt]
          by_cases hs : sid = u.id
          · subst hs
            have hnil : queryWatch st.backend u.id true = [] := by
              rcases hq : queryWatch st.backend u.id true with _ | ⟨x, xs⟩
              · rfl
              · exact absurd hcc (by simp [cacheOf, hq])
            have hq2 := @queryWatch_cons_pos (mkInfraction st.nextId u.id "watch" re true)
              st.backend u.id true ⟨rfl, rfl, rfl⟩
            simp [hq2, hnil]
          · have hne : ¬((mkInfraction st.nextId u.id "watch" re true).subjectId = sid ∧
                (mkInfraction st.nextId u.id "watch" re true).active = true ∧
                (mkInfraction st.nextId u.id "watch" re true).kind = "watch") :=
              fun h => hs h.1.symm
            simp [queryWatch_cons_neg hne, hs]
            exact ⟨hinv.1, rfl⟩
      · simp [apply_watch, hb, fetch_user_cache, hcc, InvAt]
        exact ⟨hinv.1, rfl⟩

theorem wf_apply_watch (st : SysState) (u : User) (a re : String) (ro co : Bool)
    (hwf : WF st) : WF (apply_watch st u a re ro co).state := by
  by_cases hb : u.bot
  · simpa [apply_watch, hb]
  · cases ro with
    | false => simpa [apply_watch, hb, fetch_user_cache]
    | true =>
      rcases hcc : cacheOf st.backend u.id with _ | rec
      · cases co with
        | false =>
          simpa [apply_watch, hb, fetch_user_cache, post_infraction, hcc, WF] using hwf
        | true =>
          simp [apply_watch, hb, fetch_user_cache, post_infraction, hcc, WF]
          refine ⟨⟨fun r hr hid => ?_, hwf.1⟩, ?_⟩
          · exact absurd hid.symm (Nat.ne_of_gt (hwf.2 r hr))
          · constructor
            · simp [mkInfraction]
            · intro r hr
              exact Nat.lt_succ_of_lt (hwf.2 r hr)
      · simpa [apply_watch, hb, fetch_user_cache, hcc, WF] using hwf

theorem invAt_apply_unwatch (st : SysState) (u : User) (re : String) (bn po : Bool)
    (sid : Nat) (hwf : WF st) (hinv : InvAt st sid) :
    InvAt (apply_unwatch st u re bn po).state sid := by
  rcases hq : queryWatch st.backend u.id true with _ | ⟨inf, _ | ⟨r2, rest⟩⟩
  · cases bn <;> simp [apply_unwatch, hq] <;> exact hinv
  · have hmem : inf ∈ queryWatch st.backend u.id true := by
      rw [hq]; exact List.mem_singleton_self inf
    have hinf := mem_queryWatch.mp hmem
    cases po with
    | false =>
      simp [apply_unwatch, hq, post_infraction, InvAt, queryWatch_listPatch]
      by_cases hs : sid = u.id
      · subst hs
        simp [hq]
      · have hall : ∀ r ∈ queryWatch st.backend sid true, (!decide (r.id = inf.id)) = true := by
          intro r hr
          have hr' := mem_queryWatch.mp hr
          simp only [Bool.not_eq_true', decide_eq_false_iff_not]
          intro hid
          have heq : r = inf := eq_of_mem_of_id_eq hwf.1 hr'.1 hinf.1 hid
          apply hs
          rw [← hr'.2.1, heq, hinf.2.1]
        have hfl := List.filter_eq_self.mpr hall
        rw [← List.filter_head?, hfl]
        simp [hs]
        exact ⟨hinv.1, hinv.2⟩
    | true =>
      have hpredAudit : ¬((mkInfraction st.nextId u.id "watch" ("Unwatched: " ++ re) false).subjectId = sid ∧
          (mkInfraction st.nextId u.id "watch" ("Unwatched: " ++ re) false).active = true ∧
          (mkInfraction st.nextId u.id "watch" ("Unwatched: " ++ re) false).kind = "watch") := by
        intro h
        exact Bool.noConfusion h.2.1
      simp [apply_unwatch, hq, post_infraction, InvAt, queryWatch_cons_neg hpredAudit,
        queryWatch_listPatch]
      by_cases hs : sid = u.id
      · subst hs
        simp [hq]
      · have hall : ∀ r ∈ queryWatch st.backend sid true, (!decide (r.id = inf.id)) = true := by
          intro r hr
          have hr' := mem_queryWatch.mp hr
          simp only [Bool.not_eq_true', decide_eq_false_iff_not]
          intro hid
          have heq : r = inf := eq_of_mem_of_id_eq hwf.1 hr'.1 hinf.1 hid
          apply hs
          rw [← hr'.2.1, heq, hinf.2.1]
        have hfl := List.filter_eq_self.mpr hall
        rw [← List.filter_head?, hfl]
        simp [hs]
        exact ⟨hinv.1, hinv.2⟩
  · simp [apply_unwatch, hq]
    exact hinv

theorem wf_apply_unwatch (st : SysState) (u : User) (re : String) (bn po : Bool)
    (hwf : WF st) : WF (apply_unwatch st u re bn po).state := by
  rcases hq : queryWatch st.backend u.id true with _ | ⟨inf, _ | ⟨r2, rest⟩⟩
  · cases bn <;> simp [apply_unwatch, hq] <;> exact hwf
  · cases po with
    | false =>
      simp [apply_unwatch, hq, post_infraction, WF, listPatch_map_id]
      refine ⟨hwf.1, ?_⟩
      intro r hr
      have hid : r.id ∈ (listPatch st.backend inf.id).map WatchRecord.id :=
        List.mem_map_of_mem _ hr
      rw [listPatch_map_id] at hid
      rcases List.mem_map.mp hid with ⟨x, hx, hxid⟩
      rw [← hxid]
      exact hwf.2 x hx
    | true =>
      simp [apply_unwatch, hq, post_infraction, WF, listPatch_map_id]
      refine ⟨⟨fun x hx hxid => ?_, hwf.1⟩, ?_, ?_⟩
      · exact absurd hxid (Nat.ne_of_lt (hwf.2 x hx))
      · exact Nat.lt_succ_self st.nextId
      · intro r hr
        have hid : r.id ∈ (listPatch st.backend inf.id).map WatchRecord.id :=
          List.mem_map_of_mem _ hr
        rw [listPatch_map_id] at hid
        rcases List.mem_map.mp hid with ⟨x, hx, hxid⟩
        rw [← hxid]
        exact Nat.lt_succ_of_lt (hwf.2 x hx)
  · simp [apply_unwatch, hq]
    exact hwf

theorem wf_invAt_runOp (st : SysState) (op : Op) (sid : Nat)
    (hwf : WF st) (hinv : InvAt st sid) :
    WF (runOp st op) ∧ InvAt (runOp st op) sid := by
  cases op with
  | watch u a r ro co =>
    exact ⟨wf_apply_watch st u a r ro co hwf, invAt_apply_watch st u a r ro co sid hinv⟩
  | unwatch u r b po =>
    exact ⟨wf_apply_unwatch st u r b po hwf, invAt_apply_unwatch st u r b po sid hwf hinv⟩

theorem wf_invAt_runOps (ops : List Op) (st : SysState) (sid : Nat)
    (hwf : WF st) (hinv : InvAt st sid) :
    WF (runOps st ops) ∧ InvAt (runOps st ops) sid := by
  induction ops generalizing st with
  | nil => exact ⟨hwf, hinv⟩
  | cons op ops ih =>
    have h := wf_invAt_runOp st op sid hwf hinv
    exact ih (runOp st op) h.1 h.2

/-! Claim theorems. -/

/-- C1, as stated, is false: its only hypothesis is that the backend
starts with at most one active watch record for the subject, but the
conclusion also asserts cache agreement, which no guard establishes.
Concretely, from a backend with no active record for subject 0 but a
stale cache entry for 0, one sequential `apply_unwatch` call on subject 0
("not watched" path) leaves the stale entry in place, so afterwards the
cache does not agree with the backend's (empty) active set for 0. -/
theorem c1_counterexample :
    (queryWatch stStale.backend 0 true).length ≤ 1 ∧
      ¬ InvAt (runOps stStale [Op.unwatch uZero "done" false true]) 0 := by
  constructor
  · simp [stStale, queryWatch]
  · intro h
    have h2 := h.2
    simp [stStale, uZero, runOps, runOp, apply_unwatch, queryWatch] at h2

/-- C1 (amended): starting from a state whose backend record ids are
pairwise distinct, whose backend holds at most one active watch record
for the subject, and whose cache entry for the subject agrees with the
backend's active records for the subject, after any finite sequence of
strictly sequential `apply_watch`/`apply_unwatch` calls the backend still
holds at most one active watch record for that subject and the cache
entry for that subject still agrees with the backend's active set. -/
theorem c1_invariant_sequential (sid : Nat) (ops : List Op) (st : SysState)
    (hwf : WF st) (hinv : InvAt st sid) : InvAt (runOps st ops) sid :=
  (wf_invAt_runOps ops st sid hwf hinv).2

/-- Witness for C1: a watch followed by an unwatch of the same user,
run from the fresh state, preserves the invariant for subject 1. -/
theorem c1_invariant_sequential_witness :
    InvAt (runOps stEmpty [Op.watch uAlice "mod" "because" true true,
      Op.unwatch uAlice "resolved" false true]) 1 :=
  c1_invariant_sequential 1
    [Op.watch uAlice "mod" "because" true true, Op.unwatch uAlice "resolved" false true]
    stEmpty (by constructor <;> simp [stEmpty, WF]) (by constructor <;> simp [stEmpty, InvAt, queryWatch])

/-- C2, as stated, is false for the third guard: the already-watched
rejection happens only after the forced cache refresh has already
replaced the cache map, so the cache can differ from its pre-call state.
Concretely, from a backend holding an active record for user 7 and an
empty (stale) cache, `apply_watch` on user 7 rejects with "already being
watched" but the cache entry for 7 changed from absent to present. -/
theorem c2_counterexample :
    (apply_watch stOne uSeven "mod" "again" true true).msgs = [alreadyWatchedMsg uSeven] ∧
      (apply_watch stOne uSeven "mod" "again" true true).state.cache 7 ≠ stOne.cache 7 := by
  constructor
  · simp [apply_watch, stOne, uSeven, fetch_user_cache, cacheOf, queryWatch, mkInfraction]
  · simp [apply_watch, stOne, uSeven, fetch_user_cache, cacheOf, queryWatch, mkInfraction]

/-- C2 (amended): each of the three guards of `apply_watch` rejects with
a user-facing negative message and performs no backend write; the bot
guard and the refresh-failure guard leave cache and backend exactly as
they were, while the already-watched guard leaves the backend unchanged
and leaves the cache equal to the refreshed cache (the backend's active
set), performing no further cache mutation. -/
theorem c2_guard_no_mutation (st : SysState) (u : User) (author reason : String)
    (ro co : Bool) :
    (u.bot = true →
      apply_watch st u author reason ro co =
        { state := st, msgs := [botGuardMsg author],
          trace := [Event.send (botGuardMsg author)] }) ∧
    (u.bot = false → ro = false →
      apply_watch st u author reason ro co =
        { state := st, msgs := [cacheFailMsg u],
          trace := [Event.send (cacheFailMsg u)] }) ∧
    (u.bot = false → ro = true → (cacheOf st.backend u.id).isSome = true →
      (apply_watch st u author reason ro co).state =
          { st with cache := cacheOf st.backend } ∧
        (apply_watch st u author reason ro co).state.backend = st.backend ∧
        (apply_watch st u author reason ro co).msgs = [alreadyWatchedMsg u]) := by
  refine ⟨fun hb => ?_, fun hb hro => ?_, fun hb hro hhit => ?_⟩
  · simp [apply_watch, hb]
  · subst hro
    simp [apply_watch, hb, fetch_user_cache]
  · subst hro
    rcases hcc : cacheOf st.backend u.id with _ | rec
    · rw [hcc] at hhit
      exact absurd hhit (by simp)
    · refine ⟨?_, ?_, ?_⟩ <;> simp [apply_watch, hb, fetch_user_cache, hcc]

/-- Witness for C2 (amended): the bot guard at a concrete input. -/
theorem c2_guard_no_mutation_witness :
    apply_watch stEmpty uBot "mod" "why" true true =
      { state := stEmpty, msgs := [botGuardMsg "mod"],
        trace := [Event.send (botGuardMsg "mod")] } :=
  (c2_guard_no_mutation stEmpty uBot "mod" "why" true true).1 rfl

/-- C3: when every guard of `apply_watch` passes but the backend create
returns empty, the operation reports the generic empty-response failure,
writes nothing to the backend, and performs no cache mutation: the cache
is exactly the refreshed cache, so every subject's cache membership
equals its membership at the moment the create was attempted. -/
theorem c3_create_failure_no_cache_mutation (st : SysState) (u : User)
    (author reason : String) (hb : u.bot = false)
    (hmiss : (cacheOf st.backend u.id).isSome = false) :
    (apply_watch st u author reason true false).msgs = [postFailMsg] ∧
      (apply_watch st u author reason true false).state.backend = st.backend ∧
      (apply_watch st u author reason true false).state.cache = cacheOf st.backend ∧
      ∀ s, ((apply_watch st u author reason true false).state.cache s).isSome =
        ((cacheOf st.backend) s).isSome := by
  rcases hcc : cacheOf st.backend u.id with _ | rec
  · refine ⟨?_, ?_, ?_, ?_⟩ <;> simp [apply_watch, hb, fetch_user_cache, post_infraction, hcc]
  · rw [hcc] at hmiss
    exact absurd hmiss (by simp)

/-- Witness for C3 at a concrete fresh state. -/
theorem c3_create_failure_no_cache_mutation_witness :
    (apply_watch stEmpty uAlice "mod" "why" true false).msgs = [postFailMsg] :=
  (c3_create_failure_no_cache_mutation stEmpty uAlice "mod" "why" rfl rfl).1

/-- C4: the history summarizer produces a digest exactly when the
inactive-history list has more than one entry; every digest reports
`episodeCount = length / 2` (integer division), the most recent closing
reason `history[0].reason` and the opening reason
`"Watched: " ++ history[1].reason`; on the two-entry history with reasons
"spam" and "test watch" the digest is (1, "spam", "Watched: test watch"). -/
theorem c4_history_digest :
    (∀ h : List WatchRecord, (summarizeHistory h).isSome ↔ 1 < h.length) ∧
    (∀ (h0 h1 : WatchRecord) (rest : List WatchRecord),
      summarizeHistory (h0 :: h1 :: rest) =
        some { episodeCount := (h0 :: h1 :: rest).length / 2,
               closingReason := h0.reason,
               openingReason := "Watched: " ++ h1.reason }) ∧
    summarizeHistory [mkInfraction 1 7 "watch" "spam" false,
        mkInfraction 0 7 "watch" "test watch" false] =
      some { episodeCount := 1, closingReason := "spam",
             openingReason := "Watched: test watch" } := by
  refine ⟨?_, ?_, ?_⟩
  · intro h
    match h with
    | [] => simp [summarizeHistory]
    | [x] => simp [summarizeHistory]
    | x :: y :: ys => simp [summarizeHistory]
  · intro h0 h1 rest
    rfl
  · rfl

/-- C5: when the backend query returns exactly one active watch record
for the subject and the audit create succeeds, `apply_unwatch` patches
that record to inactive on the backend, prepends the closing audit record
with `active = false` and reason `"Unwatched: " ++ reason`, removes the
subject from the cache, and reports success unless `banned` is set. -/
theorem c5_unwatch_single_record (st : SysState) (u : User) (reason : String)
    (banned : Bool) (inf : WatchRecord)
    (hq : queryWatch st.backend u.id true = [inf]) :
    (apply_unwatch st u reason banned true).raised = false ∧
      (apply_unwatch st u reason banned true).state.backend =
        mkInfraction st.nextId u.id "watch" ("Unwatched: " ++ reason) false ::
          listPatch st.backend inf.id ∧
      { inf with active := false } ∈ (apply_unwatch st u reason banned true).state.backend ∧
      (apply_unwatch st u reason banned true).state.cache u.id = none ∧
      (apply_unwatch st u reason banned true).msgs =
        (if banned = true then [] else [unwatchSuccessMsg u]) := by
  have hmem : inf ∈ queryWatch st.backend u.id true := by
    rw [hq]; exact List.mem_singleton_self inf
  have hinf := mem_queryWatch.mp hmem
  have hpatched : ({ inf with active := false } : WatchRecord) ∈ listPatch st.backend inf.id := by
    have := List.mem_map_of_mem
      (fun r => if r.id = inf.id then { r with active := false } else r) hinf.1
    simpa [listPatch] using this
  cases banned <;>
    simp [apply_unwatch, hq, post_infraction, hpatched]

/-- Witness for C5 at the concrete one-active-record state. -/
theorem c5_unwatch_single_record_witness :
    (apply_unwatch stOne uSeven "resolved" false true).state.cache 7 = none ∧
      (apply_unwatch stOne uSeven "resolved" false true).msgs = [unwatchSuccessMsg uSeven] := by
  have h := c5_unwatch_single_record stOne uSeven "resolved" false
    (mkInfraction 0 7 "watch" "earlier reason" true) rfl
  exact ⟨h.2.2.2.1, by simpa using h.2.2.2.2⟩

/-- C6: when the backend query returns no active watch record for the
subject, `apply_unwatch` performs no backend write and no cache mutation
(the state is untouched), and it produces the visible "not watched"
message if and only if `banned` is false; with `banned = true` the
outcome carries no user-visible text. -/
theorem c6_unwatch_not_watched (st : SysState) (u : User) (reason : String)
    (banned postOk : Bool) (hq : queryWatch st.backend u.id true = []) :
    (apply_unwatch st u reason banned postOk).state = st ∧
      (apply_unwatch st u reason banned postOk).raised = false ∧
      ((apply_unwatch st u reason banned postOk).msgs ≠ [] ↔ banned = false) ∧
      (apply_unwatch st u reason banned postOk).msgs =
        (if banned = true then [] else [notWatchedMsg]) := by
  cases banned <;> simp [apply_unwatch, hq, notWatchedMsg]

/-- Witness for C6 at a concrete fresh state with `banned = false`. -/
theorem c6_unwatch_not_watched_witness :
    (apply_unwatch stEmpty uAlice "gone" false true).state = stEmpty ∧
      (apply_unwatch stEmpty uAlice "gone" false true).msgs = [notWatchedMsg] := by
  have h := c6_unwatch_not_watched stEmpty uAlice "gone" false true rfl
  exact ⟨h.1, by simpa using h.2.2.2⟩

/-- C7, as stated, is false: with `isPartOfBan = true` and no active
watch record, `apply_unwatch` completes without raising, sends no
message, performs no write and leaves the state untouched — a failure
path (the "not watched" rejection of the error taxonomy) that is a
silent no-op. -/
theorem c7_counterexample :
    (apply_unwatch stEmpty uAlice "gone" true true).raised = false ∧
      (apply_unwatch stEmpty uAlice "gone" true true).msgs = [] ∧
      (apply_unwatch stEmpty uAlice "gone" true true).state = stEmpty ∧
      (apply_unwatch stEmpty uAlice "gone" true true).trace = [] := by
  exact ⟨rfl, rfl, rfl, rfl⟩

/-- C7 (amended): every failure path is terminal at the operation
boundary (the pure transformers return one outcome, no retries) and,
outside the ban workflow, always yields a user-facing message:
`apply_watch` sends a message on every path for all oracle outcomes, and
`apply_unwatch` with `isPartOfBan = false` either raises (multi-record
integrity fault) or sends a message; with `isPartOfBan = true` its
not-watched and success paths are deliberately silent. -/
theorem c7_failure_paths_messaged (st : SysState) (u : User) (author reason : String)
    (ro co po : Bool) :
    (apply_watch st u author reason ro co).msgs ≠ [] ∧
      ((apply_unwatch st u reason false po).raised = true ∨
        (apply_unwatch st u reason false po).msgs ≠ []) := by
  constructor
  · by_cases hb : u.bot
    · simp [apply_watch, hb]
    · cases ro with
      | false => simp [apply_watch, hb, fetch_user_cache]
      | true =>
        rcases hcc : cacheOf st.backend u.id with _ | rec
        · cases co with
          | false => simp [apply_watch, hb, fetch_user_cache, post_infraction, hcc]
          | true => simp [apply_watch, hb, fetch_user_cache, post_infraction, hcc]
        · simp [apply_watch, hb, fetch_user_cache, hcc]
  · rcases hq : queryWatch st.backend u.id true with _ | ⟨inf, _ | _⟩
    · right
      simp [apply_unwatch, hq, notWatchedMsg]
    · right
      cases po <;> simp [apply_unwatch, hq, post_infraction]
    · left
      simp [apply_unwatch, hq]

/-- C8: in every execution trace of `apply_watch` and `apply_unwatch`,
a cache insertion only inserts a record that an earlier backend create in
the same trace persisted, and a cache removal only happens after a
backend patch: the cache is never mutated before or without the
corresponding backend write. -/
theorem c8_cache_mutation_after_backend_write (st : SysState) (u : User)
    (author reason : String) (ro co bn po : Bool) :
    writesPrecedeCacheMutations [] false (apply_watch st u author reason ro co).trace = true ∧
      writesPrecedeCacheMutations [] false (apply_unwatch st u reason bn po).trace = true := by
  constructor
  · by_cases hb : u.bot
    · simp [apply_watch, hb, writesPrecedeCacheMutations]
    · cases ro with
      | false => simp [apply_watch, hb, fetch_user_cache, writesPrecedeCacheMutations]
      | true =>
        rcases hcc : cacheOf st.backend u.id with _ | rec
        · cases co with
          | false =>
            simp [apply_watch, hb, fetch_user_cache, post_infraction, hcc,
              writesPrecedeCacheMutations]
          | true =>
            simp [apply_watch, hb, fetch_user_cache, post_infraction, hcc,
              writesPrecedeCacheMutations]
        · simp [apply_watch, hb, fetch_user_cache, hcc, writesPrecedeCacheMutations]
  · rcases hq : queryWatch st.backend u.id true with _ | ⟨inf, _ | _⟩
    · cases bn <;> simp [apply_unwatch, hq, writesPrecedeCacheMutations]
    · cases bn <;> cases po <;>
        simp [apply_unwatch, hq, post_infraction, writesPrecedeCacheMutations]
    · simp [apply_unwatch, hq, writesPrecedeCacheMutations]

/-- C9: when the backend query returns more than one active watch
record for the subject, the `[infraction] = active_watches` destructuring
raises before any backend patch, audit create, cache mutation or message:
the state is unchanged and the trace is empty. -/
theorem c9_multi_record_raises (st : SysState) (u : User) (reason : String)
    (banned postOk : Bool) (r1 r2 : WatchRecord) (rest : List WatchRecord)
    (hq : queryWatch st.backend u.id true = r1 :: r2 :: rest) :
    (apply_unwatch st u reason banned postOk).raised = true ∧
      (apply_unwatch st u reason banned postOk).state = st ∧
      (apply_unwatch st u reason banned postOk).msgs = [] ∧
      (apply_unwatch st u reason banned postOk).trace = [] := by
  simp [apply_unwatch, hq]

/-- Witness for C9 at the concrete two-active-records state. -/
theorem c9_multi_record_raises_witness :
    (apply_unwatch stTwo uSeven "cleanup" false true).raised = true ∧
      (apply_unwatch stTwo uSeven "cleanup" false true).state = stTwo :=
  have h := c9_multi_record_raises stTwo uSeven "cleanup" false true
    (mkInfraction 1 7 "watch" "second" true) (mkInfraction 0 7 "watch" "first" true) [] rfl
  ⟨h.1, h.2.1⟩

/-- C10: `apply_unwatch` mutates at most the cache entry of the subject
it was invoked on; for every other subject the cache entry is unchanged,
on every path and for every oracle outcome. -/
theorem c10_unwatch_frame (st : SysState) (u : User) (reason : String)
    (banned postOk : Bool) (s : Nat) (hs : s ≠ u.id) :
    (apply_unwatch st u reason banned postOk).state.cache s = st.cache s := by
  rcases hq : queryWatch st.backend u.id true with _ | ⟨inf, _ | _⟩ <;>
    cases banned <;> cases postOk <;>
      simp [apply_unwatch, hq, post_infraction, hs]

/-- Witness for C10: unwatching user 7 leaves subject 3's entry alone. -/
theorem c10_unwatch_frame_witness :
    (apply_unwatch stOne uSeven "resolved" false true).state.cache 3 = stOne.cache 3 :=
  c10_unwatch_frame stOne uSeven "resolved" false true 3 (by decide)


/-- Witness for C4: the two-entry example digest, read off the theorem. -/
theorem c4_history_digest_witness :
    summarizeHistory [mkInfraction 1 7 "watch" "spam" false,
        mkInfraction 0 7 "watch" "test watch" false] =
      some { episodeCount := 1, closingReason := "spam",
             openingReason := "Watched: test watch" } :=
  c4_history_digest.2.2

/-- Witness for C7 (amended): a successful watch still sends a message. -/
theorem c7_failure_paths_messaged_witness :
    (apply_watch stEmpty uAlice "mod" "why" true true).msgs ≠ [] :=
  (c7_failure_paths_messaged stEmpty uAlice "mod" "why" true true true).1

/-- Witness for C8: the successful-watch trace passes the scan. -/
theorem c8_cache_mutation_after_backend_write_witness :
    writesPrecedeCacheMutations [] false
      (apply_watch stEmpty uAlice "mod" "why" true true).trace = true :=
  (c8_cache_mutation_after_backend_write stEmpty uAlice "mod" "why" true true false true).1

end BigBrother
